import Mathlib

/-!
# Verification of the signal confluence engine (`backend/utils.py`)

A shallow embedding of the indicator scoring, multi-timeframe aggregation,
session/news gating, kline resampling, outcome evaluation and indicator
computation of `backend/utils.py`, together with proofs of the stated
properties.

Conventions of the embedding:
* Python floats are modelled as `ℚ` (exact arithmetic), except in
  `compute_indicators` where the Bollinger standard deviation forces `ℝ`
  (square root).
* Python `None` becomes `Option.none`; functions returning a dict with
  `ok: False` versus a payload become `Option`-valued functions.
* Environment-variable configuration (`ENSEMBLE_MODE`, `ENSEMBLE_MIN_ADX`,
  `ENSEMBLE_MIN_ATR_PCT`, `ENSEMBLE_MAX_ATR_PCT`, `STRICT_SESSION_FILTER`,
  `STRICT_NEWS_FILTER`) is modelled by an explicit `Config` record holding
  the already-parsed values.
* Network fetches are modelled by passing the fetched data as an argument.
-/

/-- Python `int(x)` applied to a float/rational: truncation toward zero. -/
def pyInt (q : ℚ) : ℤ := if 0 ≤ q then ⌊q⌋ else ⌈q⌉

/-- Worker for `dedupFirst`, carrying the set of keys already inserted. -/
def dedupFirstAux (seen : List String) : List String → List String
  | [] => []
  | x :: xs =>
    if seen.contains x then dedupFirstAux seen xs
    else x :: dedupFirstAux (x :: seen) xs

/-- Python `list(dict.fromkeys(xs))`: deduplicate keeping the first
occurrence of each element, preserving order (dict insertion order). -/
def dedupFirst (l : List String) : List String := dedupFirstAux [] l

/-- Python `s.upper()`. -/
def strUpper (s : String) : String := String.mk (s.data.map Char.toUpper)

/-- Python `sub in s` (substring containment). -/
def strContains (s sub : String) : Bool :=
  (List.range (s.length + 1)).any (fun i => sub.data.isPrefixOf (s.data.drop i))

/-- `IndicatorSnapshot`: the dict produced by `get_live_indicators` /
`compute_indicators_ohlc` (`rsi`, `macd_hist`, `ema_fast_over_slow`,
`bb_pos`, `stoch`, `adx`, `atrp`), consumed by `_score_from_live`. -/
structure Snapshot where
  rsi : ℚ
  macd_hist : ℚ
  ema_fast_over_slow : Bool
  bb_pos : ℚ
  stoch : ℚ
  adx : Option ℚ
  atrp : Option ℚ
deriving DecidableEq, Repr

/-- The dict returned by `_score_from_live`. -/
structure ScoreResult where
  score : ℚ
  dir : String
  reasons_up : List String
  reasons_down : List String
  m : Snapshot
deriving DecidableEq, Repr

/-- The `ok: True` payload of `_aggregate_scores`. -/
structure AggDecision where
  dir : String
  confidence : ℤ
  reasons : List String
deriving DecidableEq, Repr

/-- The dict returned by `_force_signal_from_tf` on success. -/
structure Forced where
  dir : String
  confidence : ℤ
  reasons : List String
deriving DecidableEq, Repr

/-- Environment-driven configuration of the ensemble (values already parsed
from the environment variables named in the module). -/
structure Config where
  mode : String
  min_adx : ℚ
  atr_min : ℚ
  atr_max : ℚ
  strict_session : Bool
  strict_news : Bool
deriving DecidableEq, Repr

/-- The default configuration: `ENSEMBLE_MODE=pro`, `ENSEMBLE_MIN_ADX=18`,
`ENSEMBLE_MIN_ATR_PCT=0.02`, `ENSEMBLE_MAX_ATR_PCT=2.5`, both strict
filters on. -/
def cfgPro : Config :=
  { mode := "pro", min_adx := 18, atr_min := 1/50, atr_max := 5/2,
    strict_session := true, strict_news := true }

/-- A UTC instant as consumed by the session/news filters: UTC weekday
(0 = Monday), hour, minute, plus the same instant converted to
America/New_York (weekday and minutes past local midnight). The timezone
conversion done by `zoneinfo` in the source is modelled as given data. -/
structure UtcTime where
  weekday : ℕ
  hour : ℕ
  minute : ℕ
  nyWeekday : ℕ
  nyMinutesOfDay : ℕ
deriving DecidableEq, Repr

/-- `_classify_asset`: crypto / forex / gold / index / other. -/
def _classify_asset (asset : String) : String :=
  let a := strUpper asset
  if strContains a "BTC" || strContains a "ETH" then "crypto"
  else if strContains a "/" &&
      (["USD", "EUR", "GBP", "JPY", "INR"].any (fun fx => strContains a fx)) then "forex"
  else if strContains a "GOLD" || strContains a "XAU" then "gold"
  else if strContains a "NASDAQ" || strContains a "NDQ" then "index"
  else "other"

/-- `_market_open_for_asset`: the simplified open-hours model. -/
def _market_open_for_asset (asset : String) (now : UtcTime) : Bool :=
  let cls := _classify_asset asset
  if cls = "crypto" then true
  else if cls = "forex" then
    (if now.weekday = 0 ∨ now.weekday = 1 ∨ now.weekday = 2 ∨ now.weekday = 3 then true
     else if now.weekday = 4 then decide (now.hour < 21)
     else if now.weekday = 6 then decide (now.hour ≥ 21)
     else false)
  else if cls = "gold" then
    (if now.hour = 22 then false
     else if now.weekday = 6 then decide (now.hour ≥ 23)
     else if now.weekday = 0 ∨ now.weekday = 1 ∨ now.weekday = 2 ∨ now.weekday = 3 then true
     else if now.weekday = 4 then decide (now.hour < 22)
     else false)
  else if cls = "index" then
    decide (now.nyWeekday < 5 ∧ 570 ≤ now.nyMinutesOfDay ∧ now.nyMinutesOfDay < 960)
  else true

/-- `_news_risk_window`: block minutes 0-2 and 30-32 of each UTC hour for
forex/gold/index assets when `STRICT_NEWS_FILTER` is enabled. -/
def _news_risk_window (cfg : Config) (asset : String) (now : UtcTime) : Bool :=
  if ¬ cfg.strict_news then false
  else
    let cls := _classify_asset asset
    if cls ∉ (["forex", "gold", "index"] : List String) then false
    else decide (now.minute ∈ ([0, 1, 2, 30, 31, 32] : List ℕ))

/-- `_score_from_live`: the additive per-timeframe point system. The
sequence of `let` rebindings mirrors the sequential updates of `score`,
`reasons_up` and `reasons_down` in the source. -/
def _score_from_live (live : Snapshot) : ScoreResult :=
  let rsi := live.rsi
  let macd_hist := live.macd_hist
  let ema_fast_over_slow := live.ema_fast_over_slow
  let bb_pos := live.bb_pos
  let stoch := live.stoch
  let score : ℚ := 0
  let reasons_up : List String := []
  let reasons_down : List String := []
  -- RSI bands
  let score := if rsi ≥ 55 then score + 1 else score
  let reasons_up := if rsi ≥ 55 then reasons_up ++ ["RSI>55"] else reasons_up
  let score := if rsi ≤ 45 then score - 1 else score
  let reasons_down := if rsi ≤ 45 then reasons_down ++ ["RSI<45"] else reasons_down
  -- MACD hist sign
  let score := if macd_hist > 0 then score + 1 else score
  let reasons_up := if macd_hist > 0 then reasons_up ++ ["MACD>0"] else reasons_up
  let score := if macd_hist < 0 then score - 1 else score
  let reasons_down := if macd_hist < 0 then reasons_down ++ ["MACD<0"] else reasons_down
  -- EMA ribbon proxy
  let score := if ema_fast_over_slow then score + 1 else score - 1
  let reasons_up := if ema_fast_over_slow then reasons_up ++ ["EMA20>EMA50"] else reasons_up
  let reasons_down := if ema_fast_over_slow then reasons_down else reasons_down ++ ["EMA20<EMA50"]
  -- Bollinger position extremes (context)
  let score := if bb_pos > 1 then score - 1/2 else score
  let reasons_down := if bb_pos > 1 then reasons_down ++ ["Near upper BB"] else reasons_down
  let score := if bb_pos < -1 then score + 1/2 else score
  let reasons_up := if bb_pos < -1 then reasons_up ++ ["Near lower BB"] else reasons_up
  -- Stochastic tilt
  let score := if stoch ≥ 60 then score - 1/2 else score
  let reasons_down := if stoch ≥ 60 then reasons_down ++ ["Stoch>60"] else reasons_down
  let score := if stoch ≤ 40 then score + 1/2 else score
  let reasons_up := if stoch ≤ 40 then reasons_up ++ ["Stoch<40"] else reasons_up
  { score := score,
    dir := if score > 0 then "UP" else (if score < 0 then "DOWN" else "FLAT"),
    reasons_up := reasons_up,
    reasons_down := reasons_down,
    m := live }

/-- The nested `gates(direction)` check of `_aggregate_scores`: RSI
strength, EMA alignment, Bollinger-extreme cap and the ADX/ATR gates.
`sorted(rsis)[1]` is embedded as index 1 of the ascending sort (reachable
only with at least two timeframes; `getD` supplies an unused default). -/
def aggGates (cfg : Config) (mtf : List ScoreResult) (direction : String) : Bool :=
  let mode := cfg.mode
  let rsis := mtf.map (fun s => s.m.rsi)
  let emas := mtf.map (fun s => s.m.ema_fast_over_slow)
  let bb_pos := mtf.map (fun s => s.m.bb_pos)
  let adxs := mtf.map (fun s => s.m.adx)
  let atrps := mtf.map (fun s => s.m.atrp)
  let dirOk : Bool :=
    if direction = "UP" then
      let need_rsi : ℕ := if mode ≠ "aggressive" then 2 else 1
      if (rsis.filter (fun r => decide (r ≥ (if mode = "pro" then 55 else 53)))).length < need_rsi
        then false
      else
        let med := (List.insertionSort (fun a b : ℚ => a ≤ b) rsis).getD 1 0
        if med < (if mode = "pro" then 52 else 50) then false
        else if (emas.filter (fun e => e)).length < (if mode ≠ "aggressive" then 2 else 1) then false
        else
          let lim : ℚ := if mode = "pro" then 3/2 else (if mode = "balanced" then 9/5 else 2)
          if (bb_pos.filter (fun b => decide (b > lim))).length ≥ 2 then false
          else true
    else
      let need_rsi : ℕ := if mode ≠ "aggressive" then 2 else 1
      if (rsis.filter (fun r => decide (r ≤ (if mode = "pro" then 45 else 47)))).length < need_rsi
        then false
      else
        let med := (List.insertionSort (fun a b : ℚ => a ≤ b) rsis).getD 1 0
        if med > (if mode = "pro" then 48 else 50) then false
        else if (emas.filter (fun e => !e)).length < (if mode ≠ "aggressive" then 2 else 1) then false
        else
          let lim : ℚ := if mode = "pro" then -(3/2) else (if mode = "balanced" then -(9/5) else -2)
          if (bb_pos.filter (fun b => decide (b < lim))).length ≥ 2 then false
          else true
  if !dirOk then false
  else
    let need_adx : ℕ := if mode ≠ "aggressive" then 2 else 1
    let adx_ok := (adxs.filter (fun a =>
      match a with
      | some v => decide (v ≥ cfg.min_adx)
      | none => false)).length ≥ need_adx
    let need_atr : ℕ := if mode ≠ "aggressive" then 2 else 1
    let atr_ok := (atrps.filter (fun a =>
      match a with
      | some v => decide (cfg.atr_min ≤ v ∧ v ≤ cfg.atr_max)
      | none => false)).length ≥ need_atr
    decide (adx_ok = true ∧ atr_ok = true)

/-- `_aggregate_scores`: vote counting, average-score thresholds and the
strength/volatility gates. The timeframe dict is embedded as the list of
its values in iteration (insertion) order; `none` is `ok: False`. -/
def _aggregate_scores (cfg : Config) (mtf : List ScoreResult) : Option AggDecision :=
  if mtf = [] then none
  else
    let total := (mtf.map (fun s => s.score)).sum
    let n := mtf.length
    let up_votes := (mtf.filter (fun s => s.dir == "UP")).length
    let down_votes := (mtf.filter (fun s => s.dir == "DOWN")).length
    let up_reasons := (mtf.filter (fun s => s.dir == "UP")).flatMap (fun s => s.reasons_up.take 2)
    let down_reasons :=
      (mtf.filter (fun s => s.dir == "DOWN")).flatMap (fun s => s.reasons_down.take 2)
    let avg : ℚ := total / (max n 1 : ℕ)
    let need_votes : ℕ := if cfg.mode = "pro" then 3 else 2
    let avg_need_up : ℚ := if cfg.mode = "pro" then 2 else 3/2
    let avg_need_dn : ℚ := if cfg.mode = "pro" then -2 else -(3/2)
    if up_votes ≥ need_votes ∧ avg ≥ avg_need_up ∧ aggGates cfg mtf "UP" = true then
      some { dir := "UP", confidence := min 5 (2 + pyInt avg),
             reasons := (dedupFirst up_reasons).take 3 }
    else if down_votes ≥ need_votes ∧ avg ≤ avg_need_dn ∧ aggGates cfg mtf "DOWN" = true then
      some { dir := "DOWN", confidence := min 5 (2 + pyInt |avg|),
             reasons := (dedupFirst down_reasons).take 3 }
    else none

/-- `_force_signal_from_tf`: single-timeframe forced fallback, trying the
timeframes in order (5m, 3m, 1m in the caller). Each list entry models the
result of `get_live_indicators` for one timeframe (`none` = not ok). -/
def _force_signal_from_tf (cfg : Config) : List (Option Snapshot) → Option Forced
  | [] => none
  | none :: rest => _force_signal_from_tf cfg rest
  | some live :: rest =>
    let s := _score_from_live live
    let d := s.dir
    let d := if d = "FLAT" then
        (if live.macd_hist > 0 then "UP"
         else if live.macd_hist < 0 then "DOWN"
         else if live.ema_fast_over_slow then "UP" else "DOWN")
      else d
    -- Enforce ADX/ATR gates on fallback to avoid weak setups
    match s.m.adx, s.m.atrp with
    | some adx, some atrp =>
      if adx < cfg.min_adx then _force_signal_from_tf cfg rest
      else if ¬ (cfg.atr_min ≤ atrp ∧ atrp ≤ cfg.atr_max) then _force_signal_from_tf cfg rest
      else
        let reasons := if d = "UP" then s.reasons_up else s.reasons_down
        some { dir := d,
               confidence := max 2 (min 4 (2 + pyInt |s.score|)),
               reasons := (dedupFirst reasons).take 3 }
    | _, _ => _force_signal_from_tf cfg rest

/-- The NO-TRADE message template of `generate_ensemble_signal`
(emoji prefixes elided). -/
def noTradeMsg (pair reason : String) : String :=
  pair ++ "\nDirection: NO-TRADE\nConfidence: 0/5\nReason: " ++ reason ++
    ".\nThis is not financial advice."

/-- The directional message template of `generate_ensemble_signal`
(emoji prefixes elided). -/
def dirMsg (pair dir : String) (confidence : ℤ) (reason : String) : String :=
  pair ++ "\nDirection: " ++ dir ++ "\nConfidence: " ++ toString confidence ++
    "/5\nReason: " ++ reason ++ ".\nThis is not financial advice."

/-- `generate_ensemble_signal`: session filter, news filter, multi-timeframe
aggregation, forced single-timeframe fallback, then the absolute fallback.
The pair is given directly (the source's `random.choice` over the default
asset list only fills in a missing argument); the two network-dependent
inputs, the multi-timeframe scores and the per-timeframe live snapshots for
the forced fallback, are passed as arguments. -/
def generate_ensemble_signal (cfg : Config) (now : UtcTime) (pair : String)
    (mtf : List ScoreResult) (lives : List (Option Snapshot)) : String :=
  if cfg.strict_session = true ∧ ¬ _market_open_for_asset pair now = true then
    noTradeMsg pair "Session closed/illiquid"
  else if _news_risk_window cfg pair now = true then
    noTradeMsg pair "High-impact news window"
  else
    match _aggregate_scores cfg mtf with
    | some agg =>
      let reason_text :=
        if agg.reasons ≠ [] then String.intercalate ", " agg.reasons
        else (if agg.dir = "UP" then "MTF EMA+MACD+RSI confluence" else "MTF EMA+MACD+RSI pressure")
      dirMsg pair agg.dir agg.confidence reason_text
    | none =>
      match _force_signal_from_tf cfg lives with
      | some forced =>
        let reason_text :=
          if forced.reasons ≠ [] then String.intercalate ", " forced.reasons
          else "Single-TF bias (EMA+MACD+RSI)"
        dirMsg pair forced.dir forced.confidence reason_text
      | none => dirMsg pair "UP" 2 "Fallback bias"

/-- One OHLCV kline row `[openTimeMs, open, high, low, close, volume,
closeTimeMs]` as fetched from Binance/Finnhub (the source indexes the row
positionally; rows always carry all seven fields, so the
`len(seg[-1]) > 6` fallback of `_resample_klines` is always on its
then-branch). -/
structure Kline where
  openTime : ℤ
  openPrice : ℚ
  high : ℚ
  low : ℚ
  closePrice : ℚ
  volume : ℚ
  closeTime : ℤ
deriving DecidableEq, Repr, Inhabited

/-- The body of the `for` loop of `_resample_klines` applied to one group
`seg`: `none` on an empty segment (the loop's `continue`). -/
def mkResampled : List Kline → Option Kline
  | [] => none
  | k0 :: rest =>
    some { openTime := k0.openTime,
           openPrice := k0.openPrice,
           high := rest.foldl (fun a x => max a x.high) k0.high,
           low := rest.foldl (fun a x => min a x.low) k0.low,
           closePrice := (rest.getLastD k0).closePrice,
           volume := ((k0 :: rest).map (fun x => x.volume)).sum,
           closeTime := (rest.getLastD k0).closeTime }

/-- `_resample_klines`: group every `group` consecutive 1-minute candles
into one candle; `group <= 1` returns the input unchanged; the trailing
partial group is dropped (`take = (n // group) * group`). The index `i` of
the source's `range(0, take, group)` is `j * group` here. -/
def _resample_klines (kl : List Kline) (group : ℕ) : List Kline :=
  if group ≤ 1 then kl
  else
    let tk := (kl.length / group) * group
    let base := kl.take tk
    (List.range (kl.length / group)).filterMap
      (fun j => mkResampled ((base.drop (j * group)).take group))

/-- The structured result of `_eval_option_a_crypto` (exit time kept as the
bar's close-time epoch instead of the formatted ISO string). -/
structure EvalResult where
  entry_price : ℚ
  exit_price : ℚ
  pnl_pct : ℚ
  exit_time : ℤ
  outcome : String
deriving DecidableEq, Repr

/-- The entry-bar search loop of `_eval_option_a_crypto`: first bar that
contains `entry_ms` or starts at/after it. -/
def entryIdx (kl : List Kline) (entry_ms : ℤ) : Option ℕ :=
  kl.findIdx? (fun k =>
    decide ((k.openTime ≤ entry_ms ∧ entry_ms < k.closeTime) ∨ entry_ms ≤ k.openTime))

/-- `_eval_option_a_crypto` after its network fetch and ISO-8601 parsing
(both modelled by passing the fetched klines and the parsed entry epoch
directly; a failed fetch or parse returns `None` before this logic runs):
locate the entry bar, step 4 bars ahead, and compute the direction-signed
percentage P/L. -/
def _eval_option_a_crypto (kl : List Kline) (entry_ms : ℤ) (direction : String) :
    Option EvalResult :=
  match entryIdx kl entry_ms with
  | none => none
  | some idx =>
    let exit_idx := idx + 4
    if exit_idx ≥ kl.length then none  -- not enough candles yet
    else
      let entry_price := (kl.getD idx default).closePrice
      let exit_price := (kl.getD exit_idx default).closePrice
      let sign : ℚ := if direction = "UP" then 1 else -1
      let pnl := (exit_price - entry_price) / entry_price * 100 * sign
      some { entry_price := entry_price,
             exit_price := exit_price,
             pnl_pct := pnl,
             exit_time := (kl.getD exit_idx default).closeTime,
             outcome := if pnl > 0 then "WIN" else "LOSS" }

/-- Python negative-slice `closes[-n:]`: the last `n` elements (the whole
list when shorter than `n`). -/
def pyTail (l : List ℝ) (n : ℕ) : List ℝ := l.drop (l.length - n)

/-- The nested `ema(series, period)` helper of `compute_indicators`:
seed with the first element, then fold the exponential update over the
rest. The source indexes `series[0]`; it is never called on an empty
series (`0` stands in for that unreachable case). -/
noncomputable def ema (series : List ℝ) (period : ℕ) : ℝ :=
  let k : ℝ := 2 / ((period : ℝ) + 1)
  match series with
  | [] => 0
  | x :: xs => xs.foldl (fun e v => v * k + e * (1 - k)) x

/-- The per-step price changes `closes[i] - closes[i-1]`. -/
def priceChanges (closes : List ℝ) : List ℝ :=
  (closes.zip closes.tail).map (fun p => p.2 - p.1)

/-- The `gains` list of `compute_indicators`: `max(ch, 0.0)`. -/
def gainsOf (closes : List ℝ) : List ℝ := (priceChanges closes).map (fun c => max c 0)

/-- The `losses` list of `compute_indicators`: `max(-ch, 0.0)`. -/
def lossesOf (closes : List ℝ) : List ℝ := (priceChanges closes).map (fun c => max (-c) 0)

/-- One step of the Wilder smoothing loop of `rsi_calc`, applied to the
pair (average gain, average loss) and the next (gain, loss) sample. -/
noncomputable def rsiStep (period : ℕ) (av : ℝ × ℝ) (gl : ℝ × ℝ) : ℝ × ℝ :=
  ((av.1 * ((period : ℝ) - 1) + gl.1) / (period : ℝ),
   (av.2 * ((period : ℝ) - 1) + gl.2) / (period : ℝ))

open scoped Classical in
/-- The nested `rsi_calc(gs, ls, period)` helper of `compute_indicators`:
seed with simple averages of the first `period` samples, Wilder-smooth the
rest, `RS = avg_gain/avg_loss` (999 when `avg_loss == 0`),
`RSI = 100 - 100/(1+RS)`. -/
noncomputable def rsi_calc (gs ls : List ℝ) (period : ℕ) : ℝ :=
  if gs.length < period then 50
  else
    let avg_gain := (gs.take period).sum / (period : ℝ)
    let avg_loss := (ls.take period).sum / (period : ℝ)
    let p := ((gs.drop period).zip (ls.drop period)).foldl (rsiStep period) (avg_gain, avg_loss)
    let rs : ℝ := if p.2 ≠ 0 then p.1 / p.2 else 999
    100 - (100 / (1 + rs))

/-- The MACD-histogram computation of `compute_indicators`: EMA12 − EMA26
of the last 120 closes, minus the EMA9 signal computed over the per-prefix
MACD series of the last 150 closes. -/
noncomputable def macdHistOf (closes : List ℝ) : ℝ :=
  let macd := ema (pyTail closes 120) 12 - ema (pyTail closes 120) 26
  let s := pyTail closes 150
  let macd_series := (List.range s.length).map
    (fun i => ema (s.take (i + 1)) 12 - ema (s.take (i + 1)) 26)
  let signal := ema macd_series 9
  macd - signal

open scoped Classical in
/-- The `EMA(20) > EMA(50)` flag of `compute_indicators` (computed over the
last 200 closes). -/
noncomputable def emaFlagOf (closes : List ℝ) : Bool :=
  if ema (pyTail closes 200) 20 > ema (pyTail closes 200) 50 then true else false

open scoped Classical in
/-- The Bollinger position of `compute_indicators`:
`(last - SMA20) / (2 * STD20)` over the last 20 closes, 0 when the
standard deviation is 0. -/
noncomputable def bbPosOf (closes : List ℝ) : ℝ :=
  let win := pyTail closes 20
  let sma20 := win.sum / 20
  let std20 := Real.sqrt ((win.map (fun x => (x - sma20) ^ 2)).sum / 20)
  if std20 = 0 then 0 else (closes.getLastD 0 - sma20) / (2 * std20)

open scoped Classical in
/-- The Stochastic(14) of `compute_indicators`:
`(last - min14) / (max14 - min14) * 100`, 50 on a zero range. -/
noncomputable def stochOf (closes : List ℝ) : ℝ :=
  let w := pyTail closes 14
  let lo := match w with | [] => 0 | x :: xs => xs.foldl min x
  let hi := match w with | [] => 0 | x :: xs => xs.foldl max x
  if hi = lo then 50 else (closes.getLastD 0 - lo) / (hi - lo) * 100

/-- `IndicatorSnapshot` as produced by `compute_indicators` (closes-only:
no `adx`/`atrp`). -/
structure Indicators where
  rsi : ℝ
  macd_hist : ℝ
  ema_fast_over_slow : Bool
  bb_pos : ℝ
  stoch : ℝ

/-- `compute_indicators`: neutral defaults for fewer than 60 closes, else
RSI(14), MACD(12,26,9) histogram, EMA20>EMA50 flag, Bollinger position and
Stochastic(14). -/
noncomputable def compute_indicators (closes : List ℝ) : Indicators :=
  if closes.length < 60 then
    { rsi := 50, macd_hist := 0, ema_fast_over_slow := false, bb_pos := 0, stoch := 50 }
  else
    { rsi := rsi_calc (gainsOf closes) (lossesOf closes) 14,
      macd_hist := macdHistOf closes,
      ema_fast_over_slow := emaFlagOf closes,
      bb_pos := bbPosOf closes,
      stoch := stochOf closes }

/-- The all-neutral indicator snapshot of the P8 scenario: RSI exactly 50,
MACD histogram exactly 0, `ema_fast_over_slow = false` (the flag
`EMA20 > EMA50` is false when EMA20 equals EMA50), Bollinger position 0,
Stochastic 50. -/
def neutralSnap : Snapshot :=
  { rsi := 50, macd_hist := 0, ema_fast_over_slow := false, bb_pos := 0, stoch := 50,
    adx := none, atrp := none }

/-- Evaluation of `_score_from_live` on the all-neutral snapshot: only the
EMA term fires (the else-branch subtracting 1), so the total is -1 and the
direction is DOWN. -/
theorem score_from_live_neutralSnap :
    _score_from_live neutralSnap =
      { score := -1, dir := "DOWN", reasons_up := [], reasons_down := ["EMA20<EMA50"],
        m := neutralSnap } := by
  norm_num [_score_from_live, neutralSnap]

/-- C1, counterexample: on the all-neutral snapshot (RSI 50, MACD histogram
0, EMA20 = EMA50 so the flag is false, Bollinger position 0, Stochastic
50), `_score_from_live` does not produce total score 0 with direction
FLAT. -/
theorem score_from_live_neutral_not_flat :
    ¬ ((_score_from_live neutralSnap).score = 0 ∧
       (_score_from_live neutralSnap).dir = "FLAT") := by
  rw [score_from_live_neutralSnap]
  intro h
  exact absurd h.1 (by norm_num)

/-- C1, amended: on the all-neutral snapshot the per-timeframe scoring
produces total score -1 and direction DOWN, because the EMA term always
contributes -1 when `ema_fast_over_slow` is false (which is the case when
EMA20 equals EMA50 exactly). -/
theorem score_from_live_neutral_scores_down :
    (_score_from_live neutralSnap).score = -1 ∧
    (_score_from_live neutralSnap).dir = "DOWN" := by
  rw [score_from_live_neutralSnap]
  exact ⟨rfl, rfl⟩

/-- C3: for fewer than 60 closes, `compute_indicators` returns exactly the
neutral snapshot (RSI 50, MACD histogram 0, EMA flag false, Bollinger
position 0, Stochastic 50) and cannot raise (it is a total function). -/
theorem compute_indicators_short_neutral (closes : List ℝ) (h : closes.length < 60) :
    compute_indicators closes =
      { rsi := 50, macd_hist := 0, ema_fast_over_slow := false, bb_pos := 0, stoch := 50 } := by
  rw [compute_indicators, if_pos h]

/-- Witness for C3 at the empty list of closes. -/
theorem compute_indicators_short_neutral_witness :
    ([] : List ℝ).length < 60 ∧
    compute_indicators [] =
      { rsi := 50, macd_hist := 0, ema_fast_over_slow := false, bb_pos := 0, stoch := 50 } :=
  ⟨by decide, compute_indicators_short_neutral [] (by decide)⟩

/-- C9: whenever the forced single-timeframe fallback returns a decision,
its confidence is an integer in the closed range [2, 4]. -/
theorem force_signal_confidence_range (cfg : Config) (lives : List (Option Snapshot))
    (f : Forced) (h : _force_signal_from_tf cfg lives = some f) :
    2 ≤ f.confidence ∧ f.confidence ≤ 4 := by
  induction lives with
  | nil => simp [_force_signal_from_tf] at h
  | cons hd tl ih =>
    match hd with
    | none =>
      rw [_force_signal_from_tf] at h
      exact ih h
    | some live =>
      rw [_force_signal_from_tf] at h
      rcases hadx : (_score_from_live live).m.adx with _ | adx <;>
        rcases hatr : (_score_from_live live).m.atrp with _ | atrp <;>
          simp only [hadx, hatr] at h
      · exact ih h
      · exact ih h
      · exact ih h
      · by_cases h1 : adx < cfg.min_adx
        · rw [if_pos h1] at h
          exact ih h
        · rw [if_neg h1] at h
          by_cases h2 : ¬ (cfg.atr_min ≤ atrp ∧ atrp ≤ cfg.atr_max)
          · rw [if_pos h2] at h
            exact ih h
          · rw [if_neg h2] at h
            have hf : f.confidence = max 2 (min 4 (2 + pyInt |(_score_from_live live).score|)) := by
              have := (Option.some.injEq _ _).mp h.symm
              rw [this]
            constructor
            · rw [hf]; exact le_max_left _ _
            · rw [hf]
              exact max_le (by norm_num) (min_le_left _ _)

/-- A snapshot passing every gate: RSI 60, positive MACD histogram, EMA
aligned, neutral Bollinger/Stochastic, ADX 25, ATR% 0.5. -/
def snapGood : Snapshot :=
  { rsi := 60, macd_hist := 1, ema_fast_over_slow := true, bb_pos := 0, stoch := 50,
    adx := some 25, atrp := some (1/2) }

/-- Evaluation of `_score_from_live` on `snapGood`. -/
theorem score_from_live_snapGood :
    _score_from_live snapGood =
      { score := 3, dir := "UP", reasons_up := ["RSI>55", "MACD>0", "EMA20>EMA50"],
        reasons_down := [], m := snapGood } := by
  norm_num [_score_from_live, snapGood]

/-- Witness for C9: a single good 5m snapshot forces a decision, whose
confidence is within [2, 4]. -/
theorem force_signal_confidence_range_witness :
    2 ≤ (Forced.mk "UP" 4 ["RSI>55", "MACD>0", "EMA20>EMA50"]).confidence ∧
    (Forced.mk "UP" 4 ["RSI>55", "MACD>0", "EMA20>EMA50"]).confidence ≤ 4 :=
  force_signal_confidence_range cfgPro [some snapGood]
    (Forced.mk "UP" 4 ["RSI>55", "MACD>0", "EMA20>EMA50"])
    (by
      rw [_force_signal_from_tf, score_from_live_snapGood]
      norm_num [snapGood, cfgPro, pyInt, dedupFirst, dedupFirstAux]
      decide)

/-- The P5 scenario snapshot: RSI 60, EMA aligned, MACD histogram +1,
ADX 10 (below the floor of 18), otherwise neutral metrics. -/
def snapC2 : Snapshot :=
  { rsi := 60, macd_hist := 1, ema_fast_over_slow := true, bb_pos := 0, stoch := 50,
    adx := some 10, atrp := some (1/2) }

/-- Evaluation of `_score_from_live` on `snapC2`: each timeframe votes UP
with score 3. -/
theorem score_from_live_snapC2 :
    _score_from_live snapC2 =
      { score := 3, dir := "UP", reasons_up := ["RSI>55", "MACD>0", "EMA20>EMA50"],
        reasons_down := [], m := snapC2 } := by
  norm_num [_score_from_live, snapC2]

/-- The gates reject UP for three `snapC2` timeframes: no timeframe has
ADX at or above the floor of 18. -/
theorem aggGates_snapC2_up_false :
    aggGates cfgPro [_score_from_live snapC2, _score_from_live snapC2, _score_from_live snapC2]
      "UP" = false := by
  rw [aggGates, score_from_live_snapC2]
  norm_num [snapC2, cfgPro, List.insertionSort, List.orderedInsert]
  decide

/-- C2: with `ENSEMBLE_MODE=pro` and `ENSEMBLE_MIN_ADX=18`, three
timeframes each scored from RSI 60, EMA aligned, MACD histogram +1 and
ADX 10 are rejected (`ok: false`): the ADX gate fails although all three
vote UP and the average score 3 meets the pro threshold 2. -/
theorem aggregate_adx_gate_rejects_low_adx :
    _aggregate_scores cfgPro
      [_score_from_live snapC2, _score_from_live snapC2, _score_from_live snapC2] = none := by
  rw [_aggregate_scores]
  rw [if_neg (by simp [score_from_live_snapC2])]
  rw [aggGates_snapC2_up_false]
  norm_num [score_from_live_snapC2, cfgPro]

/-- Nodup of `dedupFirstAux` plus freshness with respect to `seen`. -/
theorem dedupFirstAux_spec (l : List String) : ∀ seen : List String,
    (dedupFirstAux seen l).Nodup ∧ ∀ x ∈ dedupFirstAux seen l, x ∉ seen := by
  induction l with
  | nil => intro seen; simp [dedupFirstAux]
  | cons a t ih =>
    intro seen
    rw [dedupFirstAux]
    by_cases hc : seen.contains a
    · rw [if_pos hc]
      exact (ih seen)
    · rw [if_neg hc]
      have hcm : a ∉ seen := by
        intro hmem
        exact hc (List.elem_eq_true_of_mem hmem)
      refine ⟨List.nodup_cons.mpr ⟨?_, (ih (a :: seen)).1⟩, ?_⟩
      · intro hmem
        exact (ih (a :: seen)).2 _ hmem (List.mem_cons_self a seen)
      · intro x hx hxseen
        rcases List.mem_cons.mp hx with rfl | hx2
        · exact hcm hxseen
        · exact (ih (a :: seen)).2 _ hx2 (List.mem_cons_of_mem _ hxseen)

/-- `dedupFirst` always produces a duplicate-free list. -/
theorem dedupFirst_nodup (l : List String) : (dedupFirst l).Nodup :=
  (dedupFirstAux_spec l []).1

/-- The confidence formula `min(5, 2 + int(q))` lies in [2, 5] whenever
`q` is at least 3/2 (the smallest accepted average magnitude). -/
theorem confidence_formula_bounds {q : ℚ} (h : (3:ℚ)/2 ≤ q) :
    2 ≤ min 5 (2 + pyInt q) ∧ min 5 (2 + pyInt q) ≤ 5 := by
  have hf : 1 ≤ pyInt q := by
    rw [pyInt, if_pos (by linarith)]
    exact Int.le_floor.mpr (by push_cast; linarith)
  exact ⟨le_min (by norm_num) (by omega), min_le_left _ _⟩

/-- The reasons formula `list(dict.fromkeys(rs))[:3]` is duplicate-free
with at most 3 entries. -/
theorem reasons_formula_wellformed (l : List String) :
    ((dedupFirst l).take 3).Nodup ∧ ((dedupFirst l).take 3).length ≤ 3 :=
  ⟨(List.take_sublist _ _).nodup (dedupFirst_nodup _), by
    simp only [List.length_take]
    exact min_le_left 3 _⟩

/-- C6: whenever `_aggregate_scores` accepts (`ok: true`), the confidence
is an integer between 2 and 5 and the reasons list is deduplicated with at
most 3 entries. -/
theorem aggregate_ok_confidence_reasons (cfg : Config) (mtf : List ScoreResult)
    (d : AggDecision) (h : _aggregate_scores cfg mtf = some d) :
    (2 ≤ d.confidence ∧ d.confidence ≤ 5) ∧ d.reasons.Nodup ∧ d.reasons.length ≤ 3 := by
  obtain ⟨mode, madx, amin, amax, ss, sn⟩ := cfg
  rw [_aggregate_scores] at h
  by_cases h0 : mtf = []
  · rw [if_pos h0] at h
    exact absurd h (by simp)
  · rw [if_neg h0] at h
    dsimp only [] at h
    by_cases hmode : mode = "pro"
    · simp only [hmode, reduceIte] at h
      split at h
      · rename_i hc
        have hd := (Option.some.injEq _ _).mp h.symm
        subst hd
        exact ⟨confidence_formula_bounds (le_trans (by norm_num) hc.2.1),
               (reasons_formula_wellformed _).1, (reasons_formula_wellformed _).2⟩
      · split at h
        · rename_i hc
          have hd := (Option.some.injEq _ _).mp h.symm
          subst hd
          refine ⟨confidence_formula_bounds ?_,
                  (reasons_formula_wellformed _).1, (reasons_formula_wellformed _).2⟩
          have hneg := hc.2.1
          rw [abs_of_nonpos (by linarith)]
          linarith
        · exact absurd h (by simp)
    · simp only [if_neg hmode] at h
      split at h
      · rename_i hc
        have hd := (Option.some.injEq _ _).mp h.symm
        subst hd
        exact ⟨confidence_formula_bounds hc.2.1,
               (reasons_formula_wellformed _).1, (reasons_formula_wellformed _).2⟩
      · split at h
        · rename_i hc
          have hd := (Option.some.injEq _ _).mp h.symm
          subst hd
          refine ⟨confidence_formula_bounds ?_,
                  (reasons_formula_wellformed _).1, (reasons_formula_wellformed _).2⟩
          have hneg := hc.2.1
          rw [abs_of_nonpos (by linarith)]
          linarith
        · exact absurd h (by simp)

/-- Three timeframes of `snapGood` scores: the input on which the
aggregation accepts in pro mode. -/
def mtfGood : List ScoreResult :=
  [_score_from_live snapGood, _score_from_live snapGood, _score_from_live snapGood]

/-- The gates accept UP for three `snapGood` timeframes. -/
theorem aggGates_mtfGood_up_true : aggGates cfgPro mtfGood "UP" = true := by
  rw [mtfGood, aggGates, score_from_live_snapGood]
  norm_num [snapGood, cfgPro, List.insertionSort, List.orderedInsert]
  decide

/-- Full evaluation of the aggregation on three `snapGood` timeframes:
accepted UP with confidence 5 and two deduplicated reasons. -/
theorem aggregate_scores_mtfGood :
    _aggregate_scores cfgPro mtfGood =
      some { dir := "UP", confidence := 5, reasons := ["RSI>55", "MACD>0"] } := by
  rw [_aggregate_scores]
  rw [if_neg (by simp [mtfGood])]
  dsimp only []
  rw [if_pos]
  · rw [mtfGood, score_from_live_snapGood]
    norm_num [pyInt, dedupFirst, dedupFirstAux]
    decide
  · refine ⟨?_, ?_, aggGates_mtfGood_up_true⟩
    · rw [mtfGood, score_from_live_snapGood]
      decide
    · rw [mtfGood, score_from_live_snapGood]
      norm_num [cfgPro]

/-- Witness for C6: the accepted decision on `mtfGood` has confidence 5
within [2, 5] and two deduplicated reasons. -/
theorem aggregate_ok_confidence_reasons_witness :
    (2 ≤ (AggDecision.mk "UP" 5 ["RSI>55", "MACD>0"]).confidence ∧
     (AggDecision.mk "UP" 5 ["RSI>55", "MACD>0"]).confidence ≤ 5) ∧
    (AggDecision.mk "UP" 5 ["RSI>55", "MACD>0"]).reasons.Nodup ∧
    (AggDecision.mk "UP" 5 ["RSI>55", "MACD>0"]).reasons.length ≤ 3 :=
  aggregate_ok_confidence_reasons cfgPro mtfGood
    (AggDecision.mk "UP" 5 ["RSI>55", "MACD>0"]) aggregate_scores_mtfGood

/-- C5: (a) when the entry bar found for `entry_time` is followed by fewer
than 4 subsequent bars, `_eval_option_a_crypto` returns `None` (pending)
rather than a fabricated P/L; (b) whenever it does return a result, the
outcome is WIN exactly when the direction-signed percentage P/L is
strictly positive, and LOSS otherwise. -/
theorem eval_option_a_horizon_and_outcome (kl : List Kline) (entry_ms : ℤ)
    (direction : String) :
    (∀ idx, entryIdx kl entry_ms = some idx → kl.length < idx + 5 →
      _eval_option_a_crypto kl entry_ms direction = none) ∧
    (∀ r, _eval_option_a_crypto kl entry_ms direction = some r →
      (r.outcome = "WIN" ↔ 0 < r.pnl_pct) ∧ (r.outcome = "LOSS" ↔ r.pnl_pct ≤ 0)) := by
  constructor
  · intro idx hidx hlen
    rw [_eval_option_a_crypto, hidx]
    dsimp only []
    rw [if_pos (by omega : idx + 4 ≥ kl.length)]
  · intro r hr
    rw [_eval_option_a_crypto] at hr
    rcases hfind : entryIdx kl entry_ms with _ | idx
    · rw [hfind] at hr
      exact absurd hr (by simp)
    · rw [hfind] at hr
      dsimp only [] at hr
      by_cases hge : idx + 4 ≥ kl.length
      · rw [if_pos hge] at hr
        exact absurd hr (by simp)
      · rw [if_neg hge] at hr
        have hr2 := (Option.some.injEq _ _).mp hr.symm
        subst hr2
        dsimp only []
        by_cases hpnl : ((kl.getD (idx + 4) default).closePrice -
            (kl.getD idx default).closePrice) / (kl.getD idx default).closePrice * 100 *
            (if direction = "UP" then 1 else -1) > 0
        · rw [if_pos hpnl]
          exact ⟨iff_of_true rfl hpnl, iff_of_false (by decide) (by linarith)⟩
        · rw [if_neg hpnl]
          exact ⟨iff_of_false (by decide) hpnl, iff_of_true rfl (le_of_not_lt hpnl)⟩

/-- A flat synthetic 1-minute kline at index `i` with all prices `c`. -/
def klineAt (i : ℕ) (c : ℚ) : Kline :=
  { openTime := (i : ℤ) * 60000, openPrice := c, high := c, low := c, closePrice := c,
    volume := 1, closeTime := ((i : ℤ) + 1) * 60000 }

/-- Three bars only: the entry bar at index 0 has just 2 subsequent bars. -/
def klShort : List Kline := [klineAt 0 100, klineAt 1 101, klineAt 2 102]

/-- Five bars: the entry bar at index 0 has exactly 4 subsequent bars. -/
def klLong : List Kline :=
  [klineAt 0 100, klineAt 1 102, klineAt 2 104, klineAt 3 106, klineAt 4 110]

/-- Concrete evaluation on `klLong`: entry close 100, exit close 110 four
bars later, +10 percent for UP, a WIN. -/
theorem eval_option_a_klLong :
    _eval_option_a_crypto klLong 0 "UP" =
      some { entry_price := 100, exit_price := 110, pnl_pct := 10, exit_time := 300000,
             outcome := "WIN" } := by
  rw [_eval_option_a_crypto]
  rw [show entryIdx klLong 0 = some 0 from by decide]
  dsimp only []
  rw [if_neg (by decide : ¬ 0 + 4 ≥ klLong.length)]
  norm_num [klLong, klineAt]

/-- Witness for C5: on `klShort` (2 bars after entry) the evaluation is
pending, and on `klLong` the returned outcome is WIN exactly because the
signed P/L 10 is positive. -/
theorem eval_option_a_horizon_and_outcome_witness :
    _eval_option_a_crypto klShort 0 "UP" = none ∧
    ((EvalResult.mk 100 110 10 300000 "WIN").outcome = "WIN" ↔
      (0:ℚ) < (EvalResult.mk 100 110 10 300000 "WIN").pnl_pct) :=
  ⟨(eval_option_a_horizon_and_outcome klShort 0 "UP").1 0 (by decide) (by decide),
   ((eval_option_a_horizon_and_outcome klLong 0 "UP").2 _ eval_option_a_klLong).1⟩

/-- A `filterMap` whose function is total on the list is a `map`. -/
theorem filterMap_eq_map_of_isSome {α β : Type _} [Inhabited β] (f : α → Option β)
    (l : List α) (h : ∀ a ∈ l, (f a).isSome) :
    l.filterMap f = l.map (fun a => (f a).getD default) := by
  induction l with
  | nil => rfl
  | cons a t ih =>
    have ht := ih (fun x hx => h x (List.mem_cons_of_mem _ hx))
    rcases hfa : f a with _ | b
    · exact absurd (h a (List.mem_cons_self a t)) (by simp [hfa])
    · simp only [List.filterMap_cons, List.map_cons, hfa, Option.getD_some, ht]

/-- Arithmetic of the resampling chunks: for `j < n / g` the `j`-th chunk
starts inside the truncated prefix and has `g` elements available. -/
theorem resample_chunk_length (n g j : ℕ) (hj : j < n / g) :
    g ≤ (n / g) * g - j * g ∧ (n / g) * g ≤ n := by
  constructor
  · have h1 : (j + 1) * g ≤ (n / g) * g := Nat.mul_le_mul_right g (Nat.succ_le_of_lt hj)
    rw [Nat.succ_mul] at h1
    generalize hT : (n / g) * g = T at h1 ⊢
    generalize hJ : j * g = J at h1 ⊢
    omega
  · exact Nat.div_mul_le_self n g

/-- Inside the truncated prefix, the `j`-th chunk of the resampling loop
coincides with the `j`-th chunk of the original list. -/
theorem resample_chunk_eq (kl : List Kline) (g j : ℕ) (hj : j < kl.length / g) :
    ((kl.take ((kl.length / g) * g)).drop (j * g)).take g = (kl.drop (j * g)).take g := by
  rw [List.drop_take, List.take_take]
  congr 1
  exact min_eq_left (resample_chunk_length kl.length g j hj).1

/-- The `j`-th chunk is nonempty for `j < n / g` and `g ≥ 2`. -/
theorem resample_chunk_len_pos (kl : List Kline) (g j : ℕ) (hg : 2 ≤ g)
    (hj : j < kl.length / g) : 0 < ((kl.drop (j * g)).take g).length := by
  have h1 := (resample_chunk_length kl.length g j hj).1
  have h2 := (resample_chunk_length kl.length g j hj).2
  rw [List.length_take, List.length_drop]
  generalize hT : (kl.length / g) * g = T at h1 h2
  generalize hJ : j * g = J at h1 ⊢
  omega

/-- `mkResampled` succeeds on any nonempty segment. -/
theorem mkResampled_isSome {l : List Kline} (h : l ≠ []) : (mkResampled l).isSome := by
  cases l with
  | nil => exact absurd rfl h
  | cons a t => rfl

/-- For `g ≥ 2` the resampled series has exactly `n / g` candles: every
full chunk produces one candle and the partial trailing chunk none. -/
theorem resample_length (kl : List Kline) (g : ℕ) (hg : 2 ≤ g) :
    (_resample_klines kl g).length = kl.length / g := by
  rw [_resample_klines, if_neg (by omega)]
  dsimp only []
  rw [filterMap_eq_map_of_isSome]
  · rw [List.length_map, List.length_range]
  · intro j hj
    rw [List.mem_range] at hj
    rw [resample_chunk_eq kl g j hj]
    exact mkResampled_isSome (List.length_pos.mp (resample_chunk_len_pos kl g j hg hj))

/-- C10: `_resample_klines` with `group <= 1` is the identity, and with
`group >= 2` the output length is the floor of `len(kl) / group`. -/
theorem resample_klines_identity_and_length (kl : List Kline) (group : ℕ) :
    (group ≤ 1 → _resample_klines kl group = kl) ∧
    (2 ≤ group → (_resample_klines kl group).length = kl.length / group) :=
  ⟨fun h => by rw [_resample_klines, if_pos h],
   fun h => resample_length kl group h⟩

/-- Witness for C10 on the 5-candle list `klLong`: identity at group 1,
and 5 // 3 = 1 output candle at group 3. -/
theorem resample_klines_identity_and_length_witness :
    _resample_klines klLong 1 = klLong ∧
    (_resample_klines klLong 3).length = klLong.length / 3 :=
  ⟨(resample_klines_identity_and_length klLong 1).1 (by decide),
   (resample_klines_identity_and_length klLong 3).2 (by decide)⟩

/-- `foldl max` over a seed `max a b` pulls `a` out of the fold. -/
theorem foldl_max_comm (l : List ℚ) : ∀ a b : ℚ,
    l.foldl max (max a b) = max a (l.foldl max b) := by
  induction l with
  | nil => intro a b; rfl
  | cons c t ih =>
    intro a b
    rw [List.foldl_cons, List.foldl_cons, max_assoc]
    exact ih a (max b c)

/-- `foldl min` over a seed `min a b` pulls `a` out of the fold. -/
theorem foldl_min_comm (l : List ℚ) : ∀ a b : ℚ,
    l.foldl min (min a b) = min a (l.foldl min b) := by
  induction l with
  | nil => intro a b; rfl
  | cons c t ih =>
    intro a b
    rw [List.foldl_cons, List.foldl_cons, min_assoc]
    exact ih a (min b c)

/-- The maximum of a nonempty list is its left fold with `max`. -/
theorem maximum_cons_foldl (a : ℚ) (l : List ℚ) :
    (a :: l).maximum = some (l.foldl max a) := by
  induction l generalizing a with
  | nil => rfl
  | cons b t ih =>
    rw [List.maximum_cons, ih b, List.foldl_cons, foldl_max_comm]
    rfl

/-- The minimum of a nonempty list is its left fold with `min`. -/
theorem minimum_cons_foldl (a : ℚ) (l : List ℚ) :
    (a :: l).minimum = some (l.foldl min a) := by
  induction l generalizing a with
  | nil => rfl
  | cons b t ih =>
    rw [List.minimum_cons, ih b, List.foldl_cons, foldl_min_comm]
    rfl

/-- C4: for `k >= 2` and each output index `j`, the resampled candle
aggregates its group of `k` source candles: open/open_time from the
group's first candle, close/close_time from its last, high/low the
group's maximum/minimum, volume the group's sum; and the output length is
`len(kl) // k`, so a partial trailing group yields no candle. -/
theorem resample_klines_group_fields (kl : List Kline) (k : ℕ) (hk : 2 ≤ k)
    (j : ℕ) (hj : j < kl.length / k) :
    (_resample_klines kl k).length = kl.length / k ∧
    ((_resample_klines kl k).getD j default).openTime =
      (((kl.drop (j * k)).take k).headD default).openTime ∧
    ((_resample_klines kl k).getD j default).openPrice =
      (((kl.drop (j * k)).take k).headD default).openPrice ∧
    ((_resample_klines kl k).getD j default).closePrice =
      (((kl.drop (j * k)).take k).getLastD default).closePrice ∧
    ((_resample_klines kl k).getD j default).closeTime =
      (((kl.drop (j * k)).take k).getLastD default).closeTime ∧
    (((kl.drop (j * k)).take k).map Kline.high).maximum =
      some ((_resample_klines kl k).getD j default).high ∧
    (((kl.drop (j * k)).take k).map Kline.low).minimum =
      some ((_resample_klines kl k).getD j default).low ∧
    ((_resample_klines kl k).getD j default).volume =
      (((kl.drop (j * k)).take k).map Kline.volume).sum := by
  have hlen := resample_length kl k hk
  have hchunkpos := resample_chunk_len_pos kl k j hk hj
  rcases hchunk : (kl.drop (j * k)).take k with _ | ⟨k0, rest⟩
  · rw [hchunk] at hchunkpos
    exact absurd hchunkpos (by simp)
  · have hout : (_resample_klines kl k).getD j default =
        { openTime := k0.openTime, openPrice := k0.openPrice,
          high := rest.foldl (fun a x => max a x.high) k0.high,
          low := rest.foldl (fun a x => min a x.low) k0.low,
          closePrice := (rest.getLastD k0).closePrice,
          volume := ((k0 :: rest).map (fun x => x.volume)).sum,
          closeTime := (rest.getLastD k0).closeTime } := by
      rw [_resample_klines, if_neg (by omega)]
      dsimp only []
      rw [filterMap_eq_map_of_isSome _ _ (fun i hi => by
        rw [List.mem_range] at hi
        rw [resample_chunk_eq kl k i hi]
        exact mkResampled_isSome (List.length_pos.mp (resample_chunk_len_pos kl k i hk hi)))]
      rw [List.getD_eq_getElem?_getD, List.getElem?_map, List.getElem?_range hj,
        Option.map_some']
      rw [resample_chunk_eq kl k j hj, hchunk]
      rfl
    rw [hout]
    refine ⟨hlen, rfl, rfl, ?_, ?_, ?_, ?_, rfl⟩
    · rw [List.getLastD_cons]
    · rw [List.getLastD_cons]
    · rw [List.map_cons, maximum_cons_foldl, List.foldl_map]
    · rw [List.map_cons, minimum_cons_foldl, List.foldl_map]

/-- Witness for C4 on the 5-candle list `klLong` with `k = 3`, group 0. -/
theorem resample_klines_group_fields_witness :
    (_resample_klines klLong 3).length = klLong.length / 3 ∧
    ((_resample_klines klLong 3).getD 0 default).openTime =
      (((klLong.drop (0 * 3)).take 3).headD default).openTime ∧
    ((_resample_klines klLong 3).getD 0 default).openPrice =
      (((klLong.drop (0 * 3)).take 3).headD default).openPrice ∧
    ((_resample_klines klLong 3).getD 0 default).closePrice =
      (((klLong.drop (0 * 3)).take 3).getLastD default).closePrice ∧
    ((_resample_klines klLong 3).getD 0 default).closeTime =
      (((klLong.drop (0 * 3)).take 3).getLastD default).closeTime ∧
    (((klLong.drop (0 * 3)).take 3).map Kline.high).maximum =
      some ((_resample_klines klLong 3).getD 0 default).high ∧
    (((klLong.drop (0 * 3)).take 3).map Kline.low).minimum =
      some ((_resample_klines klLong 3).getD 0 default).low ∧
    ((_resample_klines klLong 3).getD 0 default).volume =
      (((klLong.drop (0 * 3)).take 3).map Kline.volume).sum :=
  resample_klines_group_fields klLong 3 (by decide) 0 (by decide)

/-- Every entry of the `gains` list is nonnegative. -/
theorem gainsOf_nonneg (closes : List ℝ) : ∀ x ∈ gainsOf closes, 0 ≤ x := by
  intro x hx
  obtain ⟨c, _, rfl⟩ := List.mem_map.mp hx
  exact le_max_right _ _

/-- Every entry of the `losses` list is nonnegative. -/
theorem lossesOf_nonneg (closes : List ℝ) : ∀ x ∈ lossesOf closes, 0 ≤ x := by
  intro x hx
  obtain ⟨c, _, rfl⟩ := List.mem_map.mp hx
  exact le_max_right _ _

/-- One Wilder smoothing step keeps both averages nonnegative. -/
theorem rsiStep_nonneg (period : ℕ) (av gl : ℝ × ℝ) (hav1 : 0 ≤ av.1) (hav2 : 0 ≤ av.2)
    (hgl1 : 0 ≤ gl.1) (hgl2 : 0 ≤ gl.2) :
    0 ≤ (rsiStep period av gl).1 ∧ 0 ≤ (rsiStep period av gl).2 := by
  rcases Nat.eq_zero_or_pos period with hp | hp
  · subst hp
    simp [rsiStep]
  · have h1 : (0:ℝ) ≤ (period : ℝ) - 1 := by
      have : (1:ℝ) ≤ (period : ℝ) := by exact_mod_cast hp
      linarith
    exact ⟨div_nonneg (add_nonneg (mul_nonneg hav1 h1) hgl1) (Nat.cast_nonneg _),
           div_nonneg (add_nonneg (mul_nonneg hav2 h1) hgl2) (Nat.cast_nonneg _)⟩

/-- The Wilder smoothing fold keeps both averages nonnegative. -/
theorem rsiFold_nonneg (period : ℕ) (l : List (ℝ × ℝ)) :
    ∀ init : ℝ × ℝ, 0 ≤ init.1 → 0 ≤ init.2 →
    (∀ p ∈ l, 0 ≤ p.1 ∧ 0 ≤ p.2) →
    0 ≤ (l.foldl (rsiStep period) init).1 ∧ 0 ≤ (l.foldl (rsiStep period) init).2 := by
  induction l with
  | nil => exact fun init h1 h2 _ => ⟨h1, h2⟩
  | cons a t ih =>
    intro init h1 h2 hall
    rw [List.foldl_cons]
    have ha := hall a (List.mem_cons_self a t)
    exact ih _ (rsiStep_nonneg period init a h1 h2 ha.1 ha.2).1
      (rsiStep_nonneg period init a h1 h2 ha.1 ha.2).2
      (fun p hp => hall p (List.mem_cons_of_mem _ hp))

/-- `rsi_calc` stays within [0, 100] on nonnegative gain/loss samples,
including the `avg_loss == 0` branch where RS is taken as 999. -/
theorem rsi_calc_bounds (gs ls : List ℝ) (period : ℕ)
    (hg : ∀ x ∈ gs, 0 ≤ x) (hl : ∀ x ∈ ls, 0 ≤ x) :
    0 ≤ rsi_calc gs ls period ∧ rsi_calc gs ls period ≤ 100 := by
  rw [rsi_calc]
  split
  · norm_num
  · dsimp only []
    have hfold := rsiFold_nonneg period ((gs.drop period).zip (ls.drop period))
      ((gs.take period).sum / (period : ℝ), (ls.take period).sum / (period : ℝ))
      (div_nonneg (List.sum_nonneg (fun x hx => hg x (List.mem_of_mem_take hx)))
        (Nat.cast_nonneg _))
      (div_nonneg (List.sum_nonneg (fun x hx => hl x (List.mem_of_mem_take hx)))
        (Nat.cast_nonneg _))
      (by
        intro p hp
        rcases p with ⟨a, b⟩
        have hab := List.of_mem_zip hp
        exact ⟨hg a (List.mem_of_mem_drop hab.1), hl b (List.mem_of_mem_drop hab.2)⟩)
    set q := ((gs.drop period).zip (ls.drop period)).foldl (rsiStep period)
      ((gs.take period).sum / (period : ℝ), (ls.take period).sum / (period : ℝ))
    have hrs : (0:ℝ) ≤ (if q.2 ≠ 0 then q.1 / q.2 else 999) := by
      split
      · exact div_nonneg hfold.1 hfold.2
      · norm_num
    have h1rs : (0:ℝ) < 1 + (if q.2 ≠ 0 then q.1 / q.2 else 999) := by linarith
    constructor
    · have hle : (100:ℝ) / (1 + (if q.2 ≠ 0 then q.1 / q.2 else 999)) ≤ 100 :=
        div_le_self (by norm_num) (by linarith)
      linarith
    · have hge : (0:ℝ) ≤ 100 / (1 + (if q.2 ≠ 0 then q.1 / q.2 else 999)) :=
        div_nonneg (by norm_num) (le_of_lt h1rs)
      linarith

/-- C7: the `rsi` field of `compute_indicators` always lies in [0, 100],
both in the neutral short-series branch (RSI 50) and in the full Wilder
computation (RS taken as 999 when the average loss is 0). -/
theorem compute_indicators_rsi_bounds (closes : List ℝ) :
    0 ≤ (compute_indicators closes).rsi ∧ (compute_indicators closes).rsi ≤ 100 := by
  rw [compute_indicators]
  split
  · norm_num
  · dsimp only []
    exact rsi_calc_bounds _ _ 14 (gainsOf_nonneg closes) (lossesOf_nonneg closes)

/-- Monday 10:00:00 UTC (minute 0, inside the claimed news-block window);
the New York fields are irrelevant for a crypto pair. -/
def tMonday10h00 : UtcTime :=
  { weekday := 0, hour := 10, minute := 0, nyWeekday := 0, nyMinutesOfDay := 300 }

/-- C8, counterexample: at UTC minute 0 with `STRICT_NEWS_FILTER` on, the
crypto pair BTC/USDT is NOT blocked — `_classify_asset` is "crypto", which
`_news_risk_window` exempts — and `generate_ensemble_signal` emits a
directional UP signal, not a NO-TRADE message. -/
theorem ensemble_news_window_crypto_not_blocked :
    generate_ensemble_signal cfgPro tMonday10h00 "BTC/USDT" mtfGood [] =
      dirMsg "BTC/USDT" "UP" 5 "RSI>55, MACD>0" ∧
    dirMsg "BTC/USDT" "UP" 5 "RSI>55, MACD>0" ≠
      noTradeMsg "BTC/USDT" "High-impact news window" ∧
    dirMsg "BTC/USDT" "UP" 5 "RSI>55, MACD>0" ≠
      noTradeMsg "BTC/USDT" "Session closed/illiquid" := by
  refine ⟨?_, by decide, by decide⟩
  rw [generate_ensemble_signal]
  rw [if_neg (by decide :
    ¬ (cfgPro.strict_session = true ∧
       ¬ _market_open_for_asset "BTC/USDT" tMonday10h00 = true))]
  rw [if_neg (by decide : ¬ _news_risk_window cfgPro "BTC/USDT" tMonday10h00 = true)]
  rw [aggregate_scores_mtfGood]
  decide

/-- C8, amended: for every pair that `_classify_asset` maps to forex, gold
or index, when `STRICT_NEWS_FILTER` is enabled and the UTC minute is one
of 0, 1, 2, 30, 31, 32, `generate_ensemble_signal` returns a NO-TRADE
message (either the session-closed or the news-window block). -/
theorem ensemble_news_window_blocks_fx_gold_index (cfg : Config) (now : UtcTime)
    (pair : String) (mtf : List ScoreResult) (lives : List (Option Snapshot))
    (hnews : cfg.strict_news = true)
    (hcls : _classify_asset pair ∈ (["forex", "gold", "index"] : List String))
    (hmin : now.minute ∈ ([0, 1, 2, 30, 31, 32] : List ℕ)) :
    generate_ensemble_signal cfg now pair mtf lives =
      noTradeMsg pair "Session closed/illiquid" ∨
    generate_ensemble_signal cfg now pair mtf lives =
      noTradeMsg pair "High-impact news window" := by
  rw [generate_ensemble_signal]
  by_cases hsess : cfg.strict_session = true ∧ ¬ _market_open_for_asset pair now = true
  · rw [if_pos hsess]
    exact Or.inl rfl
  · rw [if_neg hsess]
    have hnw : _news_risk_window cfg pair now = true := by
      rw [_news_risk_window]
      rw [if_neg (by simp [hnews])]
      dsimp only []
      rw [if_neg (by simp [hcls])]
      exact decide_eq_true hmin
    rw [if_pos hnw]
    exact Or.inr rfl

/-- Wednesday 12:30 UTC (minute 30, a blocked minute for forex). -/
def tWednesday12h30 : UtcTime :=
  { weekday := 2, hour := 12, minute := 30, nyWeekday := 2, nyMinutesOfDay := 450 }

/-- Witness for the amended C8: EUR/USD at UTC minute 30 with strict
filters yields one of the two NO-TRADE messages. -/
theorem ensemble_news_window_blocks_fx_gold_index_witness :
    generate_ensemble_signal cfgPro tWednesday12h30 "EUR/USD" [] [] =
      noTradeMsg "EUR/USD" "Session closed/illiquid" ∨
    generate_ensemble_signal cfgPro tWednesday12h30 "EUR/USD" [] [] =
      noTradeMsg "EUR/USD" "High-impact news window" :=
  ensemble_news_window_blocks_fx_gold_index cfgPro tWednesday12h30 "EUR/USD" [] []
    rfl (by decide) (by decide)
